import Mathlib

/-!
Shallow embedding of `src/py4cl.py` — the worker-side half of the py4cl
bridge: the value encoder (`lispify` and friends), the framed stream codec
(`recv_string`), the response writers (`return_value` / `return_error`), the
argument splitter of the `f`/`a` branches, the callback bridge
(`callback_func`) and the reentrant `message_dispatch_loop`.

Modelling conventions:
* Python values crossing the boundary are the inductive `PyVal`.  A Python
  `float` is represented by the text that `str` produces for it (the code
  only ever uses a float through `str`); likewise `othernum` stands for an
  object whose type is not a key of the `lispifiers` table but which
  satisfies `isinstance(obj, numbers.Number)` — such an object is only ever
  used through `str`.  `otherObj` stands for any remaining object.
* A NumPy array is `NDArr`: `scalar` is a rank-0 array, `vec` a rank-1
  array of leaf elements, `nest k xs` an array with `ndim = k ≥ 2` whose
  slices along axis 0 are `xs` (NumPy stores `ndim`; the code reads
  `obj.ndim` and `obj.shape[0]`).
* Fallible Python code returns `Except String α`; the `String` is `str(e)`
  of the raised exception.  Exception message texts are modelled as
  recognizable descriptive strings — the protocol forwards `str(e)`
  opaquely and no behaviour depends on the exact text.
* The byte streams are modelled at two levels: `recv_string` works on a raw
  `List Char` input; the dispatcher works on a list of already-framed
  commands `Cmd` (payloads appear after `recv_value`, i.e. after the opaque
  `eval` of the payload string, which the spec treats as an external
  collaborator).  A frame whose length line does not parse is the command
  `Cmd.badFrame`, carrying the `ValueError` message that `int()` raises.
* Everything the worker writes to the host, plus the moments at which a
  called function actually runs, are recorded in an event trace `List Ev`,
  so that ordering claims (handle written before/after the call runs, error
  marker written, ...) are statements about the trace.
-/

/-- Python `str.replace` restricted to a single-character pattern, which is
the only way the source uses it: every occurrence of `c` becomes `r`. -/
def replaceChar (c : Char) (r : List Char) : List Char → List Char
  | [] => []
  | x :: rest => (if x = c then r else [x]) ++ replaceChar c r rest

/-- The `str` lispifier (line 78): double-quoted, with the two sequential
replaces of the source — backslashes doubled first, then double quotes
backslash-escaped. -/
def quoteStr (s : String) : String :=
  "\"" ++ String.mk (replaceChar '"' ['\\', '"'] (replaceChar '\\' ['\\', '\\'] s.data)) ++ "\""

mutual
/-- The Python values handled by the encoder and the dispatcher. -/
inductive PyVal where
  | pyNone
  | bool (b : Bool)
  | int (n : Int)
  | float (txt : String)
  | complex (re im : String)
  | str (s : String)
  | symbol (name : String)
  | list (xs : List PyVal)
  | tuple (xs : List PyVal)
  | dict (entries : List (PyVal × PyVal))
  | ndarray (a : NDArr)
  | exc (msg : String)
  | func (b : FnBody)
  | othernum (txt : String)
  | otherObj
  deriving Repr

/-- A NumPy array, as seen by `lispify_ndarray`: its `ndim`, its slices
along axis 0, and its leaf elements. -/
inductive NDArr where
  | scalar (x : PyVal)
  | vec (xs : List PyVal)
  | nest (ndim : Nat) (xs : List NDArr)
  deriving Repr

/-- Behaviour of a Python callable bound in the evaluation namespace.  The
real code obtains callables via the opaque `eval`; the claims only need
callables that return a value, raise, reflect their arguments back, or call
back into the host via `_py4cl_callback`. -/
inductive FnBody where
  | retVal (v : PyVal)
  | raiseMsg (msg : String)
  | reflectArgs
  | doCallback (ident : PyVal)
  deriving Repr
end

/-- `obj.ndim` of a modelled NumPy array. -/
def ndimOf : NDArr → Nat
  | .scalar _ => 0
  | .vec _ => 1
  | .nest k _ => k

mutual
/-- `lispify_aux` (lines 42-52): the type-keyed `lispifiers` table becomes
the match on the constructor; a type that is not a key falls through to the
`numbers.Number` test (`othernum`) and otherwise to `"NIL"`. -/
def lispify_aux : PyVal → Except String String
  | .pyNone => .ok "NIL"
  | .bool b => .ok (if b then "T" else "NIL")
  | .int n => .ok (toString n)
  | .float txt => .ok txt
  | .complex re im => .ok ("#C(" ++ re ++ " " ++ im ++ ")")
  | .str s => .ok (quoteStr s)
  | .symbol name => .ok name
  | .list xs => do
      let parts ← lispList xs
      .ok ("#(" ++ String.intercalate " " parts ++ ")")
  | .tuple xs => do
      let parts ← lispList xs
      .ok ("(" ++ String.intercalate " " parts ++ ")")
  | .dict entries => do
      let parts ← lispDict entries
      .ok ("#.(let ((table (make-hash-table :test \x27equal))) "
            ++ String.intercalate " " parts ++ " table)")
  | .ndarray a => do
      let body ← nested a
      .ok ("#" ++ toString (ndimOf a) ++ "A" ++ body)
  | .exc _ => .ok "NIL"
  | .func _ => .ok "NIL"
  | .othernum txt => .ok txt
  | .otherObj => .ok "NIL"
termination_by structural v => v

/-- Encoding of the elements of a list/tuple/rank-1 array, in order. -/
def lispList : List PyVal → Except String (List String)
  | [] => .ok []
  | v :: vs => do
      let s ← lispify_aux v
      let rest ← lispList vs
      .ok (s :: rest)
termination_by structural l => l

/-- The `(setf (gethash K table) V)` forms of the `dict` lispifier, one per
entry, in insertion order. -/
def lispDict : List (PyVal × PyVal) → Except String (List String)
  | [] => .ok []
  | (k, v) :: rest => do
      let ks ← lispify_aux k
      let vs ← lispify_aux v
      let tail ← lispDict rest
      .ok (("(setf (gethash " ++ ks ++ " table) " ++ vs ++ ")") :: tail)
termination_by structural l => l

/-- The inner `nested` of `lispify_ndarray`.  For `ndim == 1` it encodes
the leaves; otherwise it iterates `range(obj.shape[0])` — which, for a
rank-0 array, is `shape[0]` of an empty shape tuple: an `IndexError`. -/
def nested : NDArr → Except String String
  | .scalar _ => .error "IndexError: tuple index out of range"
  | .vec xs => do
      let parts ← lispList xs
      .ok ("(" ++ String.intercalate " " parts ++ ")")
  | .nest _ xs => do
      let parts ← nestedList xs
      .ok ("(" ++ String.intercalate " " parts ++ ")")
termination_by structural a => a

/-- The slices along axis 0, each rendered by `nested`, in order. -/
def nestedList : List NDArr → Except String (List String)
  | [] => .ok []
  | a :: rest => do
      let s ← nested a
      let tail ← nestedList rest
      .ok (s :: tail)
termination_by structural l => l
end

/-- `lispify_ndarray` (lines 54-66): `"#" + str(ndim) + "A" + nested(obj)`.
(The `ndarray` branch of `lispify_aux` computes this inline so that the
mutual recursion stays structural.) -/
def lispify_ndarray (a : NDArr) : Except String String := do
  let body ← nested a
  .ok ("#" ++ toString (ndimOf a) ++ "A" ++ body)

/-- `lispify` (lines 39-40) simply delegates to `lispify_aux`. -/
def lispify (obj : PyVal) : Except String String := lispify_aux obj

/-! ## Framed stream codec (`recv_string`, lines 88-95) -/

/-- Whitespace stripped by Python `int(str)` before parsing. -/
def isPyWS (c : Char) : Bool :=
  c = ' ' || c = '\t' || c = '\n' || c = '\r' || c = '\x0b' || c = '\x0c'

/-- A non-empty all-digit run, as a number. -/
def digitsToNat? : List Char → Option Nat
  | [] => none
  | cs => if cs.all Char.isDigit
          then some (cs.foldl (fun acc c => acc * 10 + (c.toNat - 48)) 0)
          else none

/-- Python `int(s)` on the length line: optional surrounding whitespace,
optional sign, then a non-empty digit run; anything else raises
`ValueError`.  (Digit-group underscores and non-ASCII digits, which CPython
also accepts, never arise in this protocol and are not modelled.) -/
def pyInt? (s : String) : Option Int :=
  let t := (s.data.dropWhile isPyWS).reverse.dropWhile isPyWS |>.reverse
  match t with
  | '-' :: ds => (digitsToNat? ds).map (fun n => -(n : Int))
  | '+' :: ds => (digitsToNat? ds).map (fun n => (n : Int))
  | ds => (digitsToNat? ds).map (fun n => (n : Int))

/-- `sys.stdin.readline()`: everything up to and including the first
newline, or the whole rest of the stream at end of file. -/
def readlineAux : List Char → List Char × List Char
  | [] => ([], [])
  | c :: rest =>
      if c = '\n' then ([c], rest)
      else
        let p := readlineAux rest
        (c :: p.1, p.2)

/-- The `ValueError` text `int()` raises on a bad length line. -/
def framingErrMsg (line : String) : String :=
  "ValueError: invalid literal for int() with base 10: " ++ line

/-- `recv_string` (lines 88-95): read one line, parse it as the length N
with `int`, then read N characters.  A length line that does not parse
raises `ValueError`.  Note the failure modes the code actually has:
`sys.stdin.read(N)` at end of file silently returns fewer characters
(truncation does NOT raise), and a negative N reads the whole rest. -/
def recv_string (stdin : List Char) : Except String (String × List Char) :=
  let p := readlineAux stdin
  match pyInt? (String.mk p.1) with
  | none => .error (framingErrMsg (String.mk p.1))
  | some n =>
      let k := if n < 0 then p.2.length else min n.toNat p.2.length
      .ok (String.mk (p.2.take k), p.2.drop k)

/-! ## Response writers (`send_value`, `return_error`, `return_value`,
lines 104-137) and the event trace -/

/-- What the model records while the worker runs: raw writes to the host
stream, and the moment a host-requested function actually executes. -/
inductive Ev where
  | out (s : String)
  | ranCall (name : String)
  deriving Repr, DecidableEq

/-- The writes of `send_value` after `lispify` has produced `s`:
`print(len(value_str))` (stdout is the real stream at that point, and
`print` appends a newline), then the string itself. -/
def sendString (s : String) : List Ev :=
  [.out (toString s.length ++ "\n"), .out s]

/-- `send_value` (lines 104-111): lispify, then length line, then payload.
If `lispify` raises, nothing has been written yet and the exception
propagates (second component). -/
def send_value (v : PyVal) : List Ev × Option String :=
  match lispify v with
  | .ok s => (sendString s, none)
  | .error e => ([], some e)

/-- `str(err)` of an exception instance.  For the modelled exceptions the
message itself plays that role. -/
def excMsg : PyVal → String
  | .exc m => m
  | _ => ""

/-- `isinstance(value, Exception)`. -/
def isExc : PyVal → Bool
  | .exc _ => true
  | _ => false

/-- `return_error` (lines 113-122): marker byte `e`, then
`send_value(str(err))` — which cannot raise, a string always lispifies. -/
def return_error (err : String) : List Ev :=
  .out "e" :: (send_value (.str err)).1

/-- `return_value` (lines 124-137): exception instances are redirected to
`return_error`; otherwise marker byte `r` then `send_value(value)`.  When
`lispify` raises inside `send_value`, the `r` marker has already been
written and the exception propagates (second component). -/
def return_value (v : PyVal) : List Ev × Option String :=
  if isExc v then (return_error (excMsg v), none)
  else
    let p := send_value v
    (.out "r" :: p.1, p.2)

/-! ## The `f`/`a` argument splitter (lines 176-186) -/

/-- Python dict assignment `d[k] = v` on an insertion-ordered dict: update
in place if the key exists, else append. -/
def dictSet (m : List (String × PyVal)) (k : String) (v : PyVal) : List (String × PyVal) :=
  match m with
  | [] => [(k, v)]
  | (k0, v0) :: rest =>
      if k0 = k then (k, v) :: rest else (k0, v0) :: dictSet rest k v

/-- `isinstance(arg, Symbol)`. -/
def isSymbol : PyVal → Bool
  | .symbol _ => true
  | _ => false

/-- The loop of lines 179-186 with its accumulators: a `Symbol` consumes
the next element as the value of the keyword named by `str(arg)[1:]` (the
first character stripped unconditionally); a `Symbol` in final position
makes `next(it)` raise `StopIteration`; anything else is appended to the
positional arguments. -/
def splitArgsLoop : List PyVal → List PyVal → List (String × PyVal) →
    Except String (List PyVal × List (String × PyVal))
  | [], args, kwargs => .ok (args, kwargs)
  | .symbol s :: rest, args, kwargs =>
      match rest with
      | w :: rest2 => splitArgsLoop rest2 args (dictSet kwargs (s.drop 1) w)
      | [] => .error "StopIteration"
  | v :: rest, args, kwargs => splitArgsLoop rest (args ++ [v]) kwargs

/-- Split the flat argument sequence of an `f`/`a` payload into positional
arguments and keyword bindings. -/
def splitArgs (allargs : List PyVal) :
    Except String (List PyVal × List (String × PyVal)) :=
  splitArgsLoop allargs [] []

/-! ## Commands, evaluation payloads, and worker state -/

/-- A payload expression handed to the opaque `eval` (spec §1 treats the
evaluator as an external collaborator; the claims need literals, raising
code, a name lookup, and code that calls `_py4cl_callback`). -/
inductive PyExpr where
  | lit (v : PyVal)
  | raiseE (msg : String)
  | var (name : String)
  | callbackE (ident : PyVal) (args : List PyVal) (kwargs : List (String × PyVal))
  deriving Repr

/-- One host→worker message, after framing: the command byte plus its
decoded payload.  `badFrame` is a message whose length line does not parse:
`recv_string` raises `ValueError` (carried here) before the branch can act.
`unknown` is any other command byte — including `""`, which is what
`sys.stdin.read(1)` yields on a closed channel. -/
inductive Cmd where
  | e (pe : PyExpr)
  | x (pe : PyExpr)
  | q
  | r (pe : PyExpr)
  | f (fnName : String) (allargs : List PyVal)
  | a (fnName : String) (allargs : List PyVal)
  | bigR (pe : PyExpr)
  | s (setlist : List (String × PyVal))
  | unknown (b : String)
  | badFrame (msg : String)
  deriving Repr

/-- The worker's mutable state: `eval_locals` (the evaluation namespace the
dispatcher mutates; the injected `eval_globals` entries are modelled
structurally by `PyExpr.callbackE` / `FnBody`), the `async_results` store,
and the running `async_handle` counter (`itertools.count(0)`). -/
structure WState where
  eval_locals : List (String × PyVal)
  async_results : List (Int × PyVal)
  async_handle : Int
  deriving Repr

/-- `eval` of a bare name against the namespace. -/
def lookupNs (st : WState) (name : String) : Option PyVal :=
  (st.eval_locals.find? (fun p => p.1 == name)).map (fun p => p.2)

/-- Python dict assignment on the `Int`-keyed async result store. -/
def setAsync (m : List (Int × PyVal)) (h : Int) (v : PyVal) : List (Int × PyVal) :=
  match m with
  | [] => [(h, v)]
  | (k0, v0) :: rest =>
      if k0 = h then (h, v) :: rest else (k0, v0) :: setAsync rest h v

/-- `async_results.pop(handle)`: the stored value and the store without it,
or `none` (→ `KeyError`) if the handle is absent. -/
def popAsync : List (Int × PyVal) → Int → Option (PyVal × List (Int × PyVal))
  | [], _ => none
  | (k, v) :: rest, h =>
      if k = h then some (v, rest)
      else
        match popAsync rest h with
        | some p => some (p.1, (k, v) :: p.2)
        | none => none

/-- Lines 240-242 of `callback_func`: keyword arguments appended to the
positional ones as alternating `Symbol(":"+key), value` pairs. -/
def flattenKw (kwargs : List (String × PyVal)) : List PyVal :=
  kwargs.foldr (fun p acc => .symbol (":" ++ p.1) :: p.2 :: acc) []

def nameErrMsg (name : String) : String :=
  "NameError: name \x27" ++ name ++ "\x27 is not defined"

def typeErrMsg : String := "TypeError: object is not callable"

def unknownMsg (b : String) : String :=
  "Unknown message type \x27" ++ b ++ "\x27"

/-- Result of evaluating a payload or calling a function: a value, a raised
exception (caught by the dispatch loop), a propagating `SystemExit`, or a
model artifact (out of fuel / out of scripted input). -/
inductive EvalRes where
  | ok (v : PyVal)
  | err (msg : String)
  | exitE
  | stopE
  deriving Repr

structure ERes where
  res : EvalRes
  evs : List Ev
  st : WState
  inp : List Cmd
  deriving Repr

/-- Result of one branch of the dispatch `try` body. -/
inductive CmdRes where
  | done
  | raised (msg : String)
  | ret (v : PyVal)
  | exitC
  | stopC
  deriving Repr

structure CRes where
  res : CmdRes
  evs : List Ev
  st : WState
  inp : List Cmd
  deriving Repr

/-- How one invocation of `message_dispatch_loop` ends: an `r` command
returned a value to the caller, `q` exited the process, the scripted input
ran out (the real loop would block on the channel), or fuel ran out (model
artifact only). -/
inductive DOut where
  | returned (v : PyVal)
  | exited
  | inputEnded
  | stopped
  deriving Repr

structure DRes where
  out : DOut
  evs : List Ev
  st : WState
  inp : List Cmd
  deriving Repr

mutual
/-- `message_dispatch_loop` (lines 139-227): read one command, run its
branch inside `try`, convert a raised exception into `return_error` and
keep looping; an `r` command returns from this invocation, `q` exits. -/
def message_dispatch_loop : Nat → WState → List Cmd → DRes
  | 0, st, inp => ⟨.stopped, [], st, inp⟩
  | _ + 1, st, [] => ⟨.inputEnded, [], st, []⟩
  | n + 1, st, c :: rest =>
      let step := runCmd n st rest c
      match step.res with
      | .done =>
          let d := message_dispatch_loop n step.st step.inp
          ⟨d.out, step.evs ++ d.evs, d.st, d.inp⟩
      | .raised e =>
          let d := message_dispatch_loop n step.st step.inp
          ⟨d.out, step.evs ++ return_error e ++ d.evs, d.st, d.inp⟩
      | .ret v => ⟨.returned v, step.evs, step.st, step.inp⟩
      | .exitC => ⟨.exited, step.evs, step.st, step.inp⟩
      | .stopC => ⟨.stopped, step.evs, step.st, step.inp⟩
termination_by structural n => n

/-- The body of the dispatch `try` block for a single command (lines
156-224), one case per command byte. -/
def runCmd : Nat → WState → List Cmd → Cmd → CRes
  | _, st, inp, .q => ⟨.exitC, [], st, inp⟩
  | _, st, inp, .unknown b => ⟨.done, return_error (unknownMsg b), st, inp⟩
  | _, st, inp, .badFrame msg => ⟨.raised msg, [], st, inp⟩
  | _, st, inp, .s setlist =>
      let locals2 := setlist.foldl (fun m p => dictSet m p.1 p.2) st.eval_locals
      let st2 : WState := ⟨locals2, st.async_results, st.async_handle⟩
      let rv := return_value (.bool true)
      match rv.2 with
      | none => ⟨.done, rv.1, st2, inp⟩
      | some e2 => ⟨.raised e2, rv.1, st2, inp⟩
  | n + 1, st, inp, .e pe =>
      let r1 := evalExpr n st inp pe
      match r1.res with
      | .ok v =>
          let rv := return_value v
          match rv.2 with
          | none => ⟨.done, r1.evs ++ rv.1, r1.st, r1.inp⟩
          | some e2 => ⟨.raised e2, r1.evs ++ rv.1, r1.st, r1.inp⟩
      | .err e => ⟨.raised e, r1.evs, r1.st, r1.inp⟩
      | .exitE => ⟨.exitC, r1.evs, r1.st, r1.inp⟩
      | .stopE => ⟨.stopC, r1.evs, r1.st, r1.inp⟩
  | n + 1, st, inp, .x pe =>
      let r1 := evalExpr n st inp pe
      match r1.res with
      | .ok _ =>
          let rv := return_value .pyNone
          match rv.2 with
          | none => ⟨.done, r1.evs ++ rv.1, r1.st, r1.inp⟩
          | some e2 => ⟨.raised e2, r1.evs ++ rv.1, r1.st, r1.inp⟩
      | .err e => ⟨.raised e, r1.evs, r1.st, r1.inp⟩
      | .exitE => ⟨.exitC, r1.evs, r1.st, r1.inp⟩
      | .stopE => ⟨.stopC, r1.evs, r1.st, r1.inp⟩
  | n + 1, st, inp, .r pe =>
      let r1 := evalExpr n st inp pe
      match r1.res with
      | .ok v => ⟨.ret v, r1.evs, r1.st, r1.inp⟩
      | .err e => ⟨.raised e, r1.evs, r1.st, r1.inp⟩
      | .exitE => ⟨.exitC, r1.evs, r1.st, r1.inp⟩
      | .stopE => ⟨.stopC, r1.evs, r1.st, r1.inp⟩
  | n + 1, st, inp, .f name allargs =>
      match splitArgs allargs with
      | .error e => ⟨.raised e, [], st, inp⟩
      | .ok p =>
          match lookupNs st name with
          | none => ⟨.raised (nameErrMsg name), [], st, inp⟩
          | some (.func b) =>
              let r1 := callFn n st inp name b p.1 p.2
              match r1.res with
              | .ok v =>
                  let rv := return_value v
                  match rv.2 with
                  | none => ⟨.done, r1.evs ++ rv.1, r1.st, r1.inp⟩
                  | some e2 => ⟨.raised e2, r1.evs ++ rv.1, r1.st, r1.inp⟩
              | .err e => ⟨.raised e, r1.evs, r1.st, r1.inp⟩
              | .exitE => ⟨.exitC, r1.evs, r1.st, r1.inp⟩
              | .stopE => ⟨.stopC, r1.evs, r1.st, r1.inp⟩
          | some _ => ⟨.raised typeErrMsg, [], st, inp⟩
  | n + 1, st, inp, .a name allargs =>
      match splitArgs allargs with
      | .error e => ⟨.raised e, [], st, inp⟩
      | .ok p =>
          match lookupNs st name with
          | none => ⟨.raised (nameErrMsg name), [], st, inp⟩
          | some (.func b) =>
              let h := st.async_handle
              let st1 : WState := ⟨st.eval_locals, st.async_results, h + 1⟩
              let rv := return_value (.int h)
              match rv.2 with
              | some e2 => ⟨.raised e2, rv.1, st1, inp⟩
              | none =>
                  let r1 := callFn n st1 inp name b p.1 p.2
                  match r1.res with
                  | .ok v =>
                      ⟨.done, rv.1 ++ r1.evs,
                        ⟨r1.st.eval_locals, setAsync r1.st.async_results h v,
                          r1.st.async_handle⟩, r1.inp⟩
                  | .err em =>
                      ⟨.done, rv.1 ++ r1.evs,
                        ⟨r1.st.eval_locals, setAsync r1.st.async_results h (.exc em),
                          r1.st.async_handle⟩, r1.inp⟩
                  | .exitE => ⟨.exitC, rv.1 ++ r1.evs, r1.st, r1.inp⟩
                  | .stopE => ⟨.stopC, rv.1 ++ r1.evs, r1.st, r1.inp⟩
          | some _ => ⟨.raised typeErrMsg, [], st, inp⟩
  | n + 1, st, inp, .bigR pe =>
      let r1 := evalExpr n st inp pe
      match r1.res with
      | .ok v =>
          match v with
          | .int h =>
              match popAsync r1.st.async_results h with
              | some pr =>
                  let st2 : WState := ⟨r1.st.eval_locals, pr.2, r1.st.async_handle⟩
                  let rv := return_value pr.1
                  match rv.2 with
                  | none => ⟨.done, r1.evs ++ rv.1, st2, r1.inp⟩
                  | some e2 => ⟨.raised e2, r1.evs ++ rv.1, st2, r1.inp⟩
              | none => ⟨.raised ("KeyError: " ++ toString h), r1.evs, r1.st, r1.inp⟩
          | _ => ⟨.raised "KeyError", r1.evs, r1.st, r1.inp⟩
      | .err e => ⟨.raised e, r1.evs, r1.st, r1.inp⟩
      | .exitE => ⟨.exitC, r1.evs, r1.st, r1.inp⟩
      | .stopE => ⟨.stopC, r1.evs, r1.st, r1.inp⟩
  | 0, st, inp, _ => ⟨.stopC, [], st, inp⟩
termination_by structural n => n

/-- The opaque `eval` of a payload, at the boundary the spec gives it:
literals, raising code, name lookup, and calls to `_py4cl_callback`. -/
def evalExpr : Nat → WState → List Cmd → PyExpr → ERes
  | _, st, inp, .lit v => ⟨.ok v, [], st, inp⟩
  | _, st, inp, .raiseE m => ⟨.err m, [], st, inp⟩
  | _, st, inp, .var name =>
      match lookupNs st name with
      | some v => ⟨.ok v, [], st, inp⟩
      | none => ⟨.err (nameErrMsg name), [], st, inp⟩
  | n + 1, st, inp, .callbackE ident args kwargs =>
      callback_func n st inp ident args kwargs
  | 0, st, inp, .callbackE _ _ _ => ⟨.stopE, [], st, inp⟩
termination_by structural n => n

/-- `callback_func` (lines 230-253): append the keyword arguments as
`Symbol(":"+key), value` pairs, write the `c` marker and the framed
`(ident, allargs)` pair, then recursively run `message_dispatch_loop` and
return whatever the first `r` command delivers to it. -/
def callback_func : Nat → WState → List Cmd → PyVal → List PyVal →
    List (String × PyVal) → ERes
  | n + 1, st, inp, ident, args, kwargs =>
      let allargs := args ++ flattenKw kwargs
      match lispify (.tuple [ident, .tuple allargs]) with
      | .error e => ⟨.err e, [.out "c"], st, inp⟩
      | .ok s =>
          let d := message_dispatch_loop n st inp
          match d.out with
          | .returned v => ⟨.ok v, (.out "c" :: sendString s) ++ d.evs, d.st, d.inp⟩
          | .exited => ⟨.exitE, (.out "c" :: sendString s) ++ d.evs, d.st, d.inp⟩
          | .inputEnded => ⟨.stopE, (.out "c" :: sendString s) ++ d.evs, d.st, d.inp⟩
          | .stopped => ⟨.stopE, (.out "c" :: sendString s) ++ d.evs, d.st, d.inp⟩
  | 0, st, inp, _, _, _ => ⟨.stopE, [], st, inp⟩
termination_by structural n => n

/-- `function(*args, **kwargs)` for the modelled callables; records the
moment the function body runs as a `ranCall` event. -/
def callFn : Nat → WState → List Cmd → String → FnBody → List PyVal →
    List (String × PyVal) → ERes
  | _, st, inp, name, .retVal v, _, _ => ⟨.ok v, [.ranCall name], st, inp⟩
  | _, st, inp, name, .raiseMsg m, _, _ => ⟨.err m, [.ranCall name], st, inp⟩
  | _, st, inp, name, .reflectArgs, args, kwargs =>
      ⟨.ok (.tuple [.tuple args, .dict (kwargs.map (fun p => (.str p.1, p.2)))]),
        [.ranCall name], st, inp⟩
  | n + 1, st, inp, name, .doCallback ident, args, kwargs =>
      let r1 := callback_func n st inp ident args kwargs
      ⟨r1.res, .ranCall name :: r1.evs, r1.st, r1.inp⟩
  | 0, st, inp, name, .doCallback _, _, _ => ⟨.stopE, [.ranCall name], st, inp⟩
termination_by structural n => n
end

/-! ## Predicates and scenario pieces used by the claim theorems -/

def isRanCallEv : Ev → Bool
  | .ranCall _ => true
  | _ => false

def isOutEv : Ev → Bool
  | .out _ => true
  | _ => false

/-- Does some function execution occur strictly before the first write to
the host stream? -/
def ranBeforeAnyWrite (tr : List Ev) : Bool :=
  (tr.takeWhile (fun ev => !(isOutEv ev))).any isRanCallEv

/-- Was an `e` marker byte written somewhere in the trace? -/
def hasErrMarker (tr : List Ev) : Bool :=
  tr.any (fun ev => ev == Ev.out "e")

/-- Modelled from the spec (§4.1 `Mapping` and claim C5): the exact literal
the claim asserts, whose constructor call is `(make-equal-hash-table)`,
with each key and value encoded by `encode` — to be compared with what
`lispify` actually produces. -/
def specMappingLiteral (entries : List (PyVal × PyVal)) : Except String String := do
  let parts ← lispDict entries
  .ok ("#.(let ((table (make-equal-hash-table))) "
        ++ String.intercalate " " parts ++ " table)")

/-- The flat argument sequence of an `f`/`a` payload, described as the spec
does: an interleaving of positional values and keyword/value pairs. -/
inductive ArgItem where
  | posArg (v : PyVal)
  | kwArg (name : String) (v : PyVal)
  deriving Repr

/-- The flat sequence the host actually sends for such an interleaving:
positional values in place, each keyword pair as `Symbol(name), value`. -/
def flattenItems : List ArgItem → List PyVal
  | [] => []
  | .posArg v :: rest => v :: flattenItems rest
  | .kwArg name v :: rest => .symbol name :: v :: flattenItems rest

/-- The positional values of the interleaving, in their original order. -/
def positionalsOf (items : List ArgItem) : List PyVal :=
  items.filterMap (fun it => match it with | .posArg v => some v | _ => none)

/-- The keyword bindings of the interleaving, accumulated left to right
with dict-assignment semantics, each bound under its name with the leading
marker character removed. -/
def kwargsFold (items : List ArgItem) (kwargs : List (String × PyVal)) :
    List (String × PyVal) :=
  items.foldl
    (fun m it => match it with
      | .kwArg name v => dictSet m (name.drop 1) v
      | _ => m) kwargs

def kwargsOf (items : List ArgItem) : List (String × PyVal) :=
  kwargsFold items []

/-- Worker state with one function `g` bound that returns the string `s`. -/
def asyncRetState (s : String) : WState :=
  ⟨[("g", .func (.retVal (.str s)))], [], 0⟩

/-- Worker state with one function `g` bound that raises with message `m`. -/
def asyncRaiseState (m : String) : WState :=
  ⟨[("g", .func (.raiseMsg m))], [], 0⟩

/-- Deferred-call lifecycle script: issue `a`, then retrieve handle 0
twice. -/
def asyncInput : List Cmd :=
  [Cmd.a "g" [], Cmd.bigR (.lit (.int 0)), Cmd.bigR (.lit (.int 0))]

/-- Worker state with one function `g` bound that calls back to the host
with identifier 0 and its own arguments. -/
def callbackState : WState :=
  ⟨[("g", .func (.doCallback (.int 0)))], [], 0⟩

/-- Worker state with one function `h` bound that returns
`(args, kwargs)`. -/
def reflectState : WState :=
  ⟨[("h", .func .reflectArgs)], [], 0⟩

/-- Worker state with one function `g` bound that returns 42, used for the
deferred-call ordering counterexample. -/
def asyncIntState : WState :=
  ⟨[("g", .func (.retVal (.int 42)))], [], 0⟩

/-- The empty worker state. -/
def emptyState : WState := ⟨[], [], 0⟩

/-- Witness interleaving for the argument-splitting claim. -/
def witnessItems : List ArgItem :=
  [.posArg (.int 1), .kwArg ":k" (.str "x"), .posArg (.int 2)]

/-! ## Sanity checks of the embedding on concrete inputs -/

theorem lispify_aux_ndarray (a : NDArr) :
    lispify_aux (.ndarray a) = lispify_ndarray a := rfl

example : lispify (.ndarray (.nest 2 [.vec [.int 1, .int 2], .vec [.int 3, .int 4]]))
    = .ok "#2A((1 2) (3 4))" := rfl

example : lispify (.list [.int 1, .int 2]) = .ok "#(1 2)" := rfl
example : lispify (.tuple [.int 1, .int 2]) = .ok "(1 2)" := rfl
example : lispify (.str "a\"b") = .ok "\"a\\\"b\"" := rfl
example : lispify (.complex "3.0" "4.0") = .ok "#C(3.0 4.0)" := rfl
example : lispify (.dict [(.str "a", .int 1)])
    = .ok "#.(let ((table (make-hash-table :test \x27equal))) (setf (gethash \"a\" table) 1) table)" := rfl
example : lispify (.ndarray (.scalar (.int 5)))
    = .error "IndexError: tuple index out of range" := rfl

example : recv_string ("3\nabcdef".data) = .ok ("abc", "def".data) := rfl
example : recv_string ("abc\nxyz".data) = .error (framingErrMsg "abc\n") := rfl
example : recv_string ("5\nab".data) = .ok ("ab", []) := rfl

example : return_value (.int 7) = ([.out "r", .out "1\n", .out "7"], none) := rfl
example : return_value (.exc "boom")
    = ([.out "e", .out "6\n", .out "\"boom\""], none) := rfl

example : splitArgs [.int 1, .symbol ":k", .str "x", .int 2]
    = .ok ([.int 1, .int 2], [("k", .str "x")]) := rfl
example : splitArgs [.symbol ":k"] = .error "StopIteration" := rfl

/-! ## Shared lemmas -/

instance : DecidableEq (Except String String)
  | .ok x, .ok y => decidable_of_iff (x = y) (by simp)
  | .error x, .error y => decidable_of_iff (x = y) (by simp)
  | .ok _, .error _ => .isFalse (by simp)
  | .error _, .ok _ => .isFalse (by simp)

/-- One step of the splitter loop over a non-Symbol element: it is appended
to the positional arguments. -/
theorem splitArgsLoop_cons_nonsym (v : PyVal) (h : isSymbol v = false)
    (rest : List PyVal) (args : List PyVal) (kwargs : List (String × PyVal)) :
    splitArgsLoop (v :: rest) args kwargs = splitArgsLoop rest (args ++ [v]) kwargs := by
  cases v <;> simp_all [splitArgsLoop, isSymbol]

/-- The splitter loop over a flattened interleaving, with its accumulators
generalized. -/
theorem splitArgsLoop_flatten (items : List ArgItem)
    (h : ∀ v, ArgItem.posArg v ∈ items → isSymbol v = false) :
    ∀ args kwargs, splitArgsLoop (flattenItems items) args kwargs
      = .ok (args ++ positionalsOf items, kwargsFold items kwargs) := by
  induction items with
  | nil =>
      intro args kwargs
      simp [flattenItems, positionalsOf, kwargsFold, splitArgsLoop]
  | cons it rest ih =>
      intro args kwargs
      match it with
      | .posArg v =>
          have hv : isSymbol v = false := h v (by simp)
          rw [flattenItems, splitArgsLoop_cons_nonsym v hv,
            ih (fun w hw => h w (List.mem_cons_of_mem _ hw))]
          simp [positionalsOf, kwargsFold]
      | .kwArg name v =>
          rw [flattenItems]
          show splitArgsLoop (.symbol name :: v :: flattenItems rest) args kwargs = _
          rw [splitArgsLoop, ih (fun w hw => h w (List.mem_cons_of_mem _ hw))]
          simp [positionalsOf, kwargsFold]

/-- `readline` on a stream whose first line is `line ++ "\n"`: it returns
exactly that line (newline included) and leaves the rest. -/
theorem readlineAux_append (line : List Char) (h : ∀ c ∈ line, c ≠ '\n')
    (rest2 : List Char) :
    readlineAux (line ++ '\n' :: rest2) = (line ++ ['\n'], rest2) := by
  induction line with
  | nil => simp [readlineAux]
  | cons c cs ih =>
      have hc : c ≠ '\n' := h c (by simp)
      simp [readlineAux, hc, ih (fun d hd => h d (List.mem_cons_of_mem _ hd))]

/-! ## Claim theorems -/

/-- C4 (code bug): the spec asserts encoder totality for every supported
Value kind including NDArray of every rank, but a rank-0 array makes the
code raise `IndexError` (`obj.shape[0]` on an empty shape tuple) — while
rank-1 and rank-2 arrays encode as documented. -/
theorem claim_C4 :
    lispify (.ndarray (.scalar (.int 5)))
        = .error "IndexError: tuple index out of range"
      ∧ lispify (.ndarray (.vec [.int 1, .int 2])) = .ok "#1A(1 2)"
      ∧ lispify (.ndarray (.nest 2 [.vec [.int 1, .int 2], .vec [.int 3, .int 4]]))
        = .ok "#2A((1 2) (3 4))" :=
  ⟨rfl, rfl, rfl⟩

/-- C5 (counterexample): on the mapping `{"a": 1}` the encoder does not
produce the claimed `(make-equal-hash-table)` literal — its constructor
call is `(make-hash-table :test 'equal)`. -/
theorem claim_C5_counterexample :
    lispify (.dict [(.str "a", .int 1)])
        = .ok "#.(let ((table (make-hash-table :test \x27equal))) (setf (gethash \"a\" table) 1) table)"
      ∧ specMappingLiteral [(.str "a", .int 1)]
        = .ok "#.(let ((table (make-equal-hash-table))) (setf (gethash \"a\" table) 1) table)"
      ∧ lispify (.dict [(.str "a", .int 1)]) ≠ specMappingLiteral [(.str "a", .int 1)] :=
  ⟨rfl, rfl, by decide⟩

/-- C5 (amended): for every Mapping, encode produces exactly the executable
literal `#.(let ((table (make-hash-table :test 'equal))) (setf (gethash Ki
table) Vi) … table)`, each key and value itself encoded by encode. -/
theorem claim_C5 :
    (∀ entries parts, lispDict entries = .ok parts →
        lispify (.dict entries)
          = .ok ("#.(let ((table (make-hash-table :test \x27equal))) "
                  ++ String.intercalate " " parts ++ " table)"))
      ∧ (∀ k v sk sv, lispify k = .ok sk → lispify v = .ok sv →
          lispDict [(k, v)]
            = .ok [("(setf (gethash " ++ sk ++ " table) " ++ sv ++ ")")]) := by
  constructor
  · intro entries parts h
    simp only [lispify, lispify_aux, h]
    rfl
  · intro k v sk sv hk hv
    simp only [lispify] at hk hv
    simp only [lispDict, hk, hv]
    rfl

/-- C5 (amended) witness at the mapping `{"a": 1}`. -/
theorem claim_C5_witness :
    lispify (.dict [(.str "a", .int 1)])
        = .ok "#.(let ((table (make-hash-table :test \x27equal))) (setf (gethash \"a\" table) 1) table)"
      ∧ lispDict [(.str "a", .int 1)] = .ok ["(setf (gethash \"a\" table) 1)"] :=
  ⟨claim_C5.1 [(.str "a", .int 1)] ["(setf (gethash \"a\" table) 1)"] rfl,
   claim_C5.2 (.str "a") (.int 1) "\"a\"" "1" rfl rfl⟩

/-- C6 (counterexample): `fractions.Fraction(1, 2)` — a `numbers.Number`
whose type is outside the closed union — encodes as `"1/2"` via `str`, not
as `"NIL"`. -/
theorem claim_C6_counterexample :
    lispify (.othernum "1/2") = .ok "1/2"
      ∧ lispify (.othernum "1/2") ≠ .ok "NIL" :=
  ⟨rfl, by decide⟩

/-- C6 (amended): a value outside the closed union encodes as `"NIL"`
unless it is an instance of the numeric tower, in which case it encodes as
its decimal text via `str`. -/
theorem claim_C6 :
    (∀ t, lispify (.othernum t) = .ok t)
      ∧ lispify .otherObj = .ok "NIL"
      ∧ (∀ b, lispify (.func b) = .ok "NIL")
      ∧ (∀ m, lispify (.exc m) = .ok "NIL") :=
  ⟨fun _ => rfl, rfl, fun _ => rfl, fun _ => rfl⟩

/-- C9 (confirmed): splitting the flat argument sequence of an `f`/`a`
payload, every keyword-marked Symbol binds the next element to the
parameter named by its name with the marker removed, and every non-Symbol
element is passed positionally in its original order; moreover a concrete
`f` call shows the split arguments reaching the called function. -/
theorem claim_C9 :
    (∀ items : List ArgItem,
        (∀ name v, ArgItem.kwArg name v ∈ items → name.data.head? = some ':') →
        (∀ v, ArgItem.posArg v ∈ items → isSymbol v = false) →
        splitArgs (flattenItems items) = .ok (positionalsOf items, kwargsOf items))
      ∧ message_dispatch_loop 20 reflectState [Cmd.f "h" [.int 7, .symbol ":k", .str "x"]]
        = ⟨.inputEnded,
            [.ranCall "h", .out "r"]
              ++ sendString "((7) #.(let ((table (make-hash-table :test \x27equal))) (setf (gethash \"k\" table) \"x\") table))",
            reflectState, []⟩ := by
  constructor
  · intro items _ hpos
    rw [splitArgs, splitArgsLoop_flatten items hpos]
    rfl
  · rfl

/-- C9 witness: a concrete interleaving — one positional, one keyword pair,
one more positional. -/
theorem claim_C9_witness :
    splitArgs (flattenItems witnessItems) = .ok ([.int 1, .int 2], [("k", .str "x")]) :=
  claim_C9.1 witnessItems
    (by
      intro name v hv
      simp only [witnessItems, List.mem_cons, List.not_mem_nil, or_false] at hv
      rcases hv with h | h | h
      · exact absurd h (by simp)
      · injection h with h1 h2
        subst h1
        rfl
      · exact absurd h (by simp))
    (by
      intro v hv
      simp only [witnessItems, List.mem_cons, List.not_mem_nil, or_false] at hv
      rcases hv with h | h | h
      · injection h with h1
        subst h1
        rfl
      · exact absurd h (by simp)
      · injection h with h1
        subst h1
        rfl)

/-- C1 (counterexample): on a deferred call the worker writes the complete
AsyncHandle response (`r` marker, length line, handle) BEFORE the called
function runs — no function execution precedes the first write — even
though the result is indeed computed and stored before the next command. -/
theorem claim_C1_counterexample :
    (message_dispatch_loop 10 asyncIntState [Cmd.a "g" []]).evs
        = [.out "r", .out "1\n", .out "0", .ranCall "g"]
      ∧ ranBeforeAnyWrite (message_dispatch_loop 10 asyncIntState [Cmd.a "g" []]).evs = false
      ∧ (message_dispatch_loop 10 asyncIntState [Cmd.a "g" []]).st.async_results
        = [(0, .int 42)] :=
  ⟨rfl, rfl, rfl⟩

/-- C1 (amended): for every `a` command the handle response is written to
the host first; the called function then runs to completion and its result
is stored in the async result store before the dispatcher touches the next
command, which only defers delivery of the already-computed result. -/
theorem claim_C1 (n : Nat) (v : PyVal) (rest : List Cmd) (ls : List (String × PyVal))
    (store : List (Int × PyVal)) (k : Int) :
    message_dispatch_loop (n + 2) ⟨("g", .func (.retVal v)) :: ls, store, k⟩
        (Cmd.a "g" [] :: rest)
      = (let d := message_dispatch_loop (n + 1)
             ⟨("g", .func (.retVal v)) :: ls, setAsync store k v, k + 1⟩ rest
         ⟨d.out, ([.out "r"] ++ sendString (toString k)) ++ [.ranCall "g"] ++ d.evs,
           d.st, d.inp⟩) := by
  simp [message_dispatch_loop, runCmd, evalExpr, callFn, splitArgs, splitArgsLoop, lookupNs,
    return_value, send_value, isExc, lispify, lispify_aux, sendString]

/-- C2 (counterexample): a frame whose length line is not a valid integer
is NOT fatal — `int()` raises `ValueError`, the dispatch loop's catch-all
converts it into an `e`-marked error response, and the very next command is
still served. -/
theorem claim_C2_counterexample :
    recv_string ("abc\nxyz".data) = .error (framingErrMsg "abc\n")
      ∧ message_dispatch_loop 10 emptyState
          [Cmd.badFrame (framingErrMsg "abc\n"), Cmd.e (.lit (.int 5))]
        = ⟨.inputEnded,
            return_error (framingErrMsg "abc\n") ++ ([.out "r"] ++ sendString "5"),
            emptyState, []⟩
      ∧ hasErrMarker (message_dispatch_loop 10 emptyState
          [Cmd.badFrame (framingErrMsg "abc\n"), Cmd.e (.lit (.int 5))]).evs = true :=
  ⟨rfl, rfl, rfl⟩

/-- C2 (amended): a length line that is not a valid integer makes
`recv_string` raise `ValueError`; the dispatcher catches it like any other
branch exception, answers with an `e`-marked error response and keeps
looping; and a payload truncated by channel close does not even raise — the
read returns the bytes available. -/
theorem claim_C2 :
    (∀ (line rest2 : List Char), (∀ c ∈ line, c ≠ '\n') →
        pyInt? (String.mk (line ++ ['\n'])) = none →
        recv_string (line ++ '\n' :: rest2)
          = .error (framingErrMsg (String.mk (line ++ ['\n']))))
      ∧ (∀ (n : Nat) (st : WState) (rest : List Cmd) (m : String),
          message_dispatch_loop (n + 1) st (Cmd.badFrame m :: rest)
            = (let d := message_dispatch_loop n st rest
               ⟨d.out, return_error m ++ d.evs, d.st, d.inp⟩))
      ∧ recv_string ("5\nab".data) = .ok ("ab", []) := by
  refine ⟨?_, ?_, rfl⟩
  · intro line rest2 h1 h2
    rw [recv_string, readlineAux_append line h1 rest2]
    simp [h2]
  · intro n st rest m
    simp [message_dispatch_loop, runCmd]

/-- C2 witness at the length line `"abc"`. -/
theorem claim_C2_witness :
    recv_string ("abc".data ++ '\n' :: "xyz".data)
      = .error (framingErrMsg (String.mk ("abc".data ++ ['\n']))) :=
  claim_C2.1 "abc".data "xyz".data (by decide) rfl

/-- C3 (confirmed): an `r` command is always delivered to the innermost
pending dispatcher frame — the current loop invocation returns its value at
once, consuming nothing further — and in a full reentrancy scenario the
callback writes its `c` message, the nested loop serves an interleaved
command, the first `r` becomes the callback's return value, and the
enclosing `f` call still completes normally with that value. -/
theorem claim_C3 :
    (∀ (n : Nat) (v : PyVal) (st : WState) (rest : List Cmd),
        message_dispatch_loop (n + 2) st (Cmd.r (.lit v) :: rest)
          = ⟨.returned v, [], st, rest⟩)
      ∧ (∀ s : String,
          message_dispatch_loop 20 callbackState
              [Cmd.f "g" [], Cmd.e (.lit (.int 1)), Cmd.r (.lit (.str s))]
            = ⟨.inputEnded,
                [.ranCall "g", .out "c"] ++ sendString "(0 ())"
                  ++ ([.out "r"] ++ sendString "1")
                  ++ ([.out "r"] ++ sendString (quoteStr s)),
                callbackState, []⟩) := by
  refine ⟨?_, fun s => rfl⟩
  intro n v st rest
  simp [message_dispatch_loop, runCmd, evalExpr]

/-- C7 (confirmed): a deferred call yields handle 0; the first `R` with
that handle delivers the stored result — the stored value as an `r`-marked
response, or the stored exception surfaced only now as an `e`-marked
response (the `a` exchange itself emitted no error) — and the second `R`
with the same handle raises `KeyError` and is answered with an error
response, not a value. -/
theorem claim_C7 (s m : String) :
    message_dispatch_loop 20 (asyncRetState s) asyncInput
        = ⟨.inputEnded,
            ([.out "r"] ++ sendString "0") ++ [.ranCall "g"]
              ++ ([.out "r"] ++ sendString (quoteStr s))
              ++ return_error "KeyError: 0",
            ⟨[("g", .func (.retVal (.str s)))], [], 1⟩, []⟩
      ∧ message_dispatch_loop 20 (asyncRaiseState m) asyncInput
        = ⟨.inputEnded,
            ([.out "r"] ++ sendString "0") ++ [.ranCall "g"]
              ++ return_error m
              ++ return_error "KeyError: 0",
            ⟨[("g", .func (.raiseMsg m))], [], 1⟩, []⟩ :=
  ⟨rfl, rfl⟩

/-- C8 (confirmed): whenever the branch of a command raises, the dispatcher
emits exactly one `e`-marked error response and continues with the next
command as a fresh iteration; an unrecognized command byte likewise gets a
single error response and the loop continues. -/
theorem claim_C8 :
    (∀ (n : Nat) (st : WState) (rest : List Cmd) (c : Cmd) (e2 : String),
        (runCmd n st rest c).res = .raised e2 →
        message_dispatch_loop (n + 1) st (c :: rest)
          = (let step := runCmd n st rest c
             let d := message_dispatch_loop n step.st step.inp
             ⟨d.out, step.evs ++ return_error e2 ++ d.evs, d.st, d.inp⟩))
      ∧ (∀ (n : Nat) (st : WState) (rest : List Cmd) (b : String),
          message_dispatch_loop (n + 1) st (Cmd.unknown b :: rest)
            = (let d := message_dispatch_loop n st rest
               ⟨d.out, return_error (unknownMsg b) ++ d.evs, d.st, d.inp⟩)) := by
  constructor
  · intro n st rest c e2 h
    simp [message_dispatch_loop, h]
  · intro n st rest b
    simp [message_dispatch_loop, runCmd]

/-- C8 witness: a raising `e` command is answered with an error response
and the next command is still served correctly. -/
theorem claim_C8_witness :
    message_dispatch_loop 3 emptyState [Cmd.e (.raiseE "boom"), Cmd.e (.lit (.int 1))]
      = ⟨.inputEnded, return_error "boom" ++ ([.out "r"] ++ sendString "1"),
          emptyState, []⟩ := by
  have h := claim_C8.1 2 emptyState [Cmd.e (.lit (.int 1))] (Cmd.e (.raiseE "boom")) "boom" rfl
  rw [h]
  rfl

/-- C10 (confirmed): a computed result that is itself an Exception instance
is never sent as an `r`-marked response — `return_value` redirects it to
`return_error`, an `e` command evaluating to an exception object is
answered with an `e`-marked response, and an `R` retrieving a stored
deferred error likewise. -/
theorem claim_C10 :
    (∀ m, return_value (.exc m) = (return_error m, none))
      ∧ (∀ (n : Nat) (st : WState) (rest : List Cmd) (m : String),
          message_dispatch_loop (n + 2) st (Cmd.e (.lit (.exc m)) :: rest)
            = (let d := message_dispatch_loop (n + 1) st rest
               ⟨d.out, return_error m ++ d.evs, d.st, d.inp⟩))
      ∧ (∀ (n : Nat) (ls : List (String × PyVal)) (k : Int) (rest : List Cmd) (m : String),
          message_dispatch_loop (n + 2) ⟨ls, [(0, .exc m)], k⟩
              (Cmd.bigR (.lit (.int 0)) :: rest)
            = (let d := message_dispatch_loop (n + 1) ⟨ls, [], k⟩ rest
               ⟨d.out, return_error m ++ d.evs, d.st, d.inp⟩)) := by
  refine ⟨fun m => rfl, ?_, ?_⟩
  · intro n st rest m
    simp [message_dispatch_loop, runCmd, evalExpr, return_value, isExc, excMsg]
  · intro n ls k rest m
    simp [message_dispatch_loop, runCmd, evalExpr, return_value, isExc, excMsg, popAsync]
